import Mathlib

/-!
Shallow embedding of the insta-graph scraper core (src/app/scraper.py and
the worker in src/app/main.py), together with a model of the Redis-backed
user-profile cache with time-based expiry (USER_CACHE_TTL).

The external provider (instagrapi `Client`) is modelled as a deterministic
`World`: a response function for `user_info_by_username` and one for
`user_followers`.  A failing call corresponds to the `ClientError`
exception that scraper.py catches; the code imports `LoginRequired`
(a `ClientError` subclass) as well, so the error carries a kind so that we
can ask whether the pipeline distinguishes authentication failures from
generic client errors.

Observable effects of a traversal (provider calls, progress callbacks,
recursive descents) are recorded in an event trace carried in the scraper
state, so that properties such as "a profile is never fetched twice" or
"a private account's follower list is never fetched" are statable.
-/

namespace InstaGraph

/-- The user-info dictionary built by `get_user_info` / `get_followers`
in scraper.py (keys user_id, username, full_name, follower_count,
following_count, is_private). -/
structure UserInfo where
  user_id : Nat
  username : String
  full_name : String
  follower_count : Nat
  following_count : Nat
  is_private : Bool
deriving Repr, DecidableEq

/-- The `FollowerInfo` pydantic model from src/app/models.py. -/
structure FollowerInfo where
  username : String
  full_name : String
  follower_count : Nat
  following_count : Nat
  is_private : Bool
  depth : Nat
deriving Repr, DecidableEq

/-- Kind of a `ClientError` raised by the provider.  scraper.py imports
`LoginRequired` (the authentication failure, a subclass of `ClientError`)
alongside `ClientError`; every handler in scraper.py catches the base
class `ClientError`. -/
inductive ClientErrorKind where
  | loginRequired
  | other
deriving Repr, DecidableEq

/-- Deterministic model of the external provider (instagrapi client):
for each username, the outcome of `user_info_by_username`, and for each
user id, the outcome of `user_followers`. -/
structure World where
  profileResp : String → Except ClientErrorKind UserInfo
  followersResp : Nat → Except ClientErrorKind (List UserInfo)

/-- Observable events of a traversal:
* `fetchProfile u ok`: a provider call `user_info_by_username(u)` was
  made (line 100 of scraper.py); `ok` records whether it succeeded;
* `fetchFollowers i`: a provider call `user_followers(i)` was made
  (line 120 of scraper.py);
* `progress u d`: the `on_progress` callback fired for user `u` at depth
  `d` (line 168 of scraper.py);
* `recurse info d`: `analyze_recursive` made a nested call on the
  resolved follower `info` from depth `d` (line 205 of scraper.py). -/
inductive Event where
  | fetchProfile (username : String) (ok : Bool)
  | fetchFollowers (user_id : Nat)
  | progress (username : String) (depth : Nat)
  | recurse (info : UserInfo) (depth : Nat)
deriving Repr, DecidableEq

/-- State threaded through one traversal: the Redis user cache (as an
association list, most recent entry first; expiry is modelled separately,
a single traversal happens inside the 24-hour window), the Python
`visited` set, and the trace of observable events. -/
structure ScrapState where
  cache : List (String × UserInfo)
  visited : List String
  events : List Event
deriving Repr, DecidableEq

/-- Association-list lookup used for the cache model. -/
def lookupCache : List (String × UserInfo) → String → Option UserInfo
  | [], _ => none
  | (k, v) :: rest, u => if k = u then some v else lookupCache rest u

/-- Whether a provider response is a success, for the event trace's
success flag. -/
def respOk : Except ClientErrorKind UserInfo → Bool
  | Except.ok _ => true
  | Except.error _ => false

/-- `get_user_info` (scraper.py lines 91-114): cache hit returns the
cached dictionary with no provider call; otherwise one provider call is
made; on success the result is cached and returned, on `ClientError`
(of any kind) the function logs and returns `None`. -/
def getUserInfo (w : World) (username : String) (s : ScrapState) :
    Option UserInfo × ScrapState :=
  match lookupCache s.cache username with
  | some u => (some u, s)
  | none =>
    let s1 : ScrapState :=
      { s with events := s.events ++
          [Event.fetchProfile username (respOk (w.profileResp username))] }
    match w.profileResp username with
    | Except.ok u => (some u, { s1 with cache := (username, u) :: s1.cache })
    | Except.error _ => (none, s1)

/-- `get_followers` (scraper.py lines 116-134): one provider call; a
`ClientError` of any kind is caught and reported as the empty list. -/
def getFollowers (w : World) (user_id : Nat) (s : ScrapState) :
    List UserInfo × ScrapState :=
  let s1 : ScrapState :=
    { s with events := s.events ++ [Event.fetchFollowers user_id] }
  match w.followersResp user_id with
  | Except.ok l => (l, s1)
  | Except.error _ => ([], s1)

/-- The body of the `for follower in followers` loop of
`analyze_recursive` (scraper.py lines 184-213) for one follower:
resolve the follower's full profile (skip on failure), append a result
item when `follower_count >= min_followers`, and under that same guard
recurse (via `recFn`, the engine at depth `current_depth + 1`) when
`current_depth < max_depth and not is_private`. -/
def processFollower (recFn : String → ScrapState → List FollowerInfo × ScrapState)
    (w : World) (current_depth max_depth min_followers : Nat)
    (f : UserInfo) (s : ScrapState) : List FollowerInfo × ScrapState :=
  match getUserInfo w f.username s with
  | (none, s1) => ([], s1)
  | (some info, s1) =>
    if min_followers ≤ info.follower_count then
      let item : FollowerInfo :=
        { username := info.username
          full_name := info.full_name
          follower_count := info.follower_count
          following_count := info.following_count
          is_private := info.is_private
          depth := current_depth }
      if current_depth < max_depth ∧ info.is_private = false then
        let s2 : ScrapState :=
          { s1 with events := s1.events ++ [Event.recurse info current_depth] }
        let nested := recFn info.username s2
        (item :: nested.1, nested.2)
      else ([item], s1)
    else ([], s1)

/-- The `for follower in followers` loop of `analyze_recursive`:
results of each iteration are accumulated in order (append, then extend
with nested results). -/
def processFollowers (recFn : String → ScrapState → List FollowerInfo × ScrapState)
    (w : World) (current_depth max_depth min_followers : Nat) :
    List UserInfo → ScrapState → List FollowerInfo × ScrapState
  | [], s => ([], s)
  | f :: rest, s =>
    let r1 := processFollower recFn w current_depth max_depth min_followers f s
    let r2 := processFollowers recFn w current_depth max_depth min_followers rest r1.2
    (r1.1 ++ r2.1, r2.2)

/-- `analyze_recursive` (scraper.py lines 136-215), with an explicit fuel
argument to make the recursion structural.  Recursion in the source only
happens when `current_depth < max_depth` at depth `current_depth + 1`,
so `max_depth - current_depth + 1` fuel always suffices (the fuel-zero
branch is unreachable from `analyzeRecursive` below).  Body: visited
check, insert into visited, progress callback, profile resolution
(return empty on failure), privacy check (return empty), follower-list
fetch, then the follower loop. -/
def analyzeRecAux (w : World) :
    Nat → String → Nat → Nat → Nat → ScrapState → List FollowerInfo × ScrapState
  | 0, _, _, _, _, s => ([], s)
  | fuel + 1, username, current_depth, max_depth, min_followers, s =>
    if username ∈ s.visited then ([], s)
    else
      let s1 : ScrapState :=
        { s with visited := username :: s.visited,
                 events := s.events ++ [Event.progress username current_depth] }
      match getUserInfo w username s1 with
      | (none, s2) => ([], s2)
      | (some info, s2) =>
        if info.is_private then ([], s2)
        else
          let fl := getFollowers w info.user_id s2
          processFollowers
            (fun u st => analyzeRecAux w fuel u (current_depth + 1) max_depth min_followers st)
            w current_depth max_depth min_followers fl.1 fl.2

/-- The public `analyze_recursive` entry: fuel `max_depth - current_depth + 1`
is enough for the whole traversal (each descent increases the depth by one
and only happens below `max_depth`). -/
def analyzeRecursive (w : World) (username : String)
    (current_depth max_depth min_followers : Nat) (s : ScrapState) :
    List FollowerInfo × ScrapState :=
  analyzeRecAux w (max_depth - current_depth + 1) username
    current_depth max_depth min_followers s

/-- Job status enum from src/app/models.py. -/
inductive JobStatus where
  | pending
  | running
  | completed
  | failed
deriving Repr, DecidableEq

/-- The fields of the job record that the worker writes at its terminal
transition (src/app/main.py `run_analysis`): status, results, error. -/
structure Job where
  status : JobStatus
  results : List FollowerInfo
  error : Option String
deriving Repr, DecidableEq

/-- The `try`/`except` of `run_analysis` (main.py lines 79-100): a normal
return of the traversal completes the job with its results and no error;
an exception escaping the traversal fails the job with the error's
message (results stay as created: empty). -/
def runAnalysisE (outcome : Except String (List FollowerInfo)) : Job :=
  match outcome with
  | Except.ok results => { status := JobStatus.completed, results := results, error := none }
  | Except.error e => { status := JobStatus.failed, results := [], error := some e }

/-- The traversal as invoked by `run_analysis` (main.py line 80):
`current_depth` defaults to 1 and `visited` to the empty set.  Every
provider `ClientError` is caught inside `get_user_info` / `get_followers`,
so in this model the traversal always returns normally. -/
def traversalOutcome (w : World) (username : String) (depth min_followers : Nat)
    (cache0 : List (String × UserInfo)) : Except String (List FollowerInfo) :=
  Except.ok (analyzeRecursive w username 1 depth min_followers
    { cache := cache0, visited := [], events := [] }).1

/-- The worker `run_analysis` (main.py lines 66-100), restricted to the
terminal job fields. -/
def runAnalysis (w : World) (username : String) (depth min_followers : Nat)
    (cache0 : List (String × UserInfo)) : Job :=
  runAnalysisE (traversalOutcome w username depth min_followers cache0)

/-- Profile resolution as a pure function of the cache and the world:
cached value if present, otherwise the provider's answer (absent on
error).  `getUserInfo` returns exactly this value. -/
def resolveProfile (cache : List (String × UserInfo)) (w : World)
    (username : String) : Option UserInfo :=
  match lookupCache cache username with
  | some u => some u
  | none =>
    match w.profileResp username with
    | Except.ok u => some u
    | Except.error _ => none

/-- Usernames of all provider profile-fetch calls in a trace (successful
or not). -/
def fetchedHandles (evs : List Event) : List String :=
  evs.filterMap fun e =>
    match e with
    | Event.fetchProfile u _ => some u
    | _ => none

/-- Usernames of the successful provider profile-fetch calls in a trace. -/
def okFetchedHandles (evs : List Event) : List String :=
  evs.filterMap fun e =>
    match e with
    | Event.fetchProfile u true => some u
    | _ => none

/-- The world with every `ClientError` kind erased to the generic kind.
scraper.py catches the base class `ClientError` everywhere, so the
pipeline cannot tell `LoginRequired` apart from any other client error. -/
def collapseKinds (w : World) : World :=
  { profileResp := fun u =>
      match w.profileResp u with
      | Except.ok v => Except.ok v
      | Except.error _ => Except.error ClientErrorKind.other,
    followersResp := fun i =>
      match w.followersResp i with
      | Except.ok l => Except.ok l
      | Except.error _ => Except.error ClientErrorKind.other }

/-! ### The Redis user cache with `SETEX` expiry (scraper.py lines 18-19,
72-89)

`_cache_user` stores the profile under key `"user:" ++ username` with
`SETEX` and TTL `USER_CACHE_TTL = 86400` seconds; Redis serves the key
only until its expiry deadline, so `_get_cached_user` behaves as a miss
once the entry is older than the TTL. -/

/-- A Redis value together with the expiry deadline set by `SETEX`. -/
structure RedisEntry where
  value : UserInfo
  expireAt : Nat
deriving Repr, DecidableEq

/-- The Redis key space backing the user cache. -/
def RedisStore : Type := String → Option RedisEntry

/-- Redis `SETEX key ttl value` at time `now`: unconditionally overwrite
the key, with expiry deadline `now + ttl`. -/
def redisSetex (store : RedisStore) (key : String) (v : UserInfo)
    (ttl now : Nat) : RedisStore :=
  fun k => if k = key then some { value := v, expireAt := now + ttl } else store k

/-- Redis `GET key` at time `now`: a key past its expiry deadline is
gone (expiry is enforced by the store on read, not proactively). -/
def redisGet (store : RedisStore) (key : String) (now : Nat) : Option UserInfo :=
  match store key with
  | some e => if e.expireAt < now then none else some e.value
  | none => none

/-- `USER_CACHE_TTL` from scraper.py line 19: 24 hours in seconds. -/
def USER_CACHE_TTL : Nat := 86400

/-- `_cache_user` (scraper.py lines 83-89). -/
def cacheUser (store : RedisStore) (username : String) (info : UserInfo)
    (now : Nat) : RedisStore :=
  redisSetex store ("user:" ++ username) info USER_CACHE_TTL now

/-- `_get_cached_user` (scraper.py lines 72-81). -/
def getCachedUser (store : RedisStore) (username : String) (now : Nat) :
    Option UserInfo :=
  redisGet store ("user:" ++ username) now

/-! ### Concrete stub worlds used for counterexamples and witnesses -/

/-- Public seed account with user id 1. -/
def uR : UserInfo := ⟨1, "r", "R", 10, 0, false⟩

/-- Public follower with 500 followers, user id 2. -/
def uA : UserInfo := ⟨2, "a", "A", 500, 7, false⟩

/-- Public follower with 500 followers, user id 3. -/
def uB : UserInfo := ⟨3, "b", "B", 500, 8, false⟩

/-- Public follower with 500 followers, user id 4. -/
def uC : UserInfo := ⟨4, "c", "C", 500, 9, false⟩

/-- A private account with a large follower count, user id 9. -/
def uPriv : UserInfo := ⟨9, "p", "P", 5000, 2, true⟩

/-- Diamond-shaped follower graph: `r` is followed by `a` and `b`, and
both `a` and `b` are followed by `c`; everyone is public and `a`, `b`,
`c` have 500 followers. -/
def wDup : World :=
  { profileResp := fun u =>
      if u = "r" then Except.ok uR
      else if u = "a" then Except.ok uA
      else if u = "b" then Except.ok uB
      else if u = "c" then Except.ok uC
      else Except.error ClientErrorKind.other,
    followersResp := fun i =>
      if i = 1 then Except.ok [uA, uB]
      else if i = 2 then Except.ok [uC]
      else if i = 3 then Except.ok [uC]
      else Except.ok [] }

/-- Same diamond graph, but resolving `c`'s profile fails with a generic
`ClientError`, so `c` is never cached and its profile is requested from
the provider once under `a` and once again under `b`. -/
def wRefetch : World :=
  { profileResp := fun u =>
      if u = "r" then Except.ok uR
      else if u = "a" then Except.ok uA
      else if u = "b" then Except.ok uB
      else Except.error ClientErrorKind.other,
    followersResp := fun i =>
      if i = 1 then Except.ok [uA, uB]
      else if i = 2 then Except.ok [uC]
      else if i = 3 then Except.ok [uC]
      else Except.ok [] }

/-- A world in which every profile resolution fails with a generic
`ClientError` (the root target cannot be resolved). -/
def wFailRoot : World :=
  { profileResp := fun _ => Except.error ClientErrorKind.other,
    followersResp := fun _ => Except.ok [] }

/-- A world in which every profile resolution fails with `LoginRequired`
(the authenticated session is invalid). -/
def wAuth : World :=
  { profileResp := fun _ => Except.error ClientErrorKind.loginRequired,
    followersResp := fun _ => Except.error ClientErrorKind.loginRequired }

/-- A world whose root target `p` is private; its follower list (user id
9) would be non-empty if it were ever requested. -/
def wPriv : World :=
  { profileResp := fun u =>
      if u = "p" then Except.ok uPriv
      else if u = "a" then Except.ok uA
      else Except.error ClientErrorKind.other,
    followersResp := fun _ => Except.ok [uA] }

/-- A world whose root target `r` resolves to a public profile but every
follower-list request fails with a generic `ClientError`. -/
def wFollowErr : World :=
  { profileResp := fun u =>
      if u = "r" then Except.ok uR
      else Except.error ClientErrorKind.other,
    followersResp := fun _ => Except.error ClientErrorKind.other }

/-! ### Predicates used by the verification -/

/-- A trace fragment consisting only of profile-fetch call events. -/
def profileOnly (t : List Event) : Prop :=
  ∀ e ∈ t, ∃ u b, e = Event.fetchProfile u b

/-- Invariant tying successful profile fetches to cache entries: the
successfully fetched handles are pairwise distinct, and each of them has
a cache entry. -/
def fetchInv (s : ScrapState) : Prop :=
  (okFetchedHandles s.events).Nodup ∧
  ∀ u ∈ okFetchedHandles s.events, lookupCache s.cache u ≠ none

/-- Every recursive-descent event in the trace satisfies the recursion
gate: threshold met, parent depth strictly below the bound, account not
private. -/
def recurseSound (max_depth min_followers : Nat) (evs : List Event) : Prop :=
  ∀ info pd, Event.recurse info pd ∈ evs →
    min_followers ≤ info.follower_count ∧ pd < max_depth ∧ info.is_private = false

/-! ## Basic lemmas about the primitives -/

/-- `get_user_info` returns exactly cache-then-provider resolution. -/
theorem getUserInfo_fst (w : World) (u : String) (s : ScrapState) :
    (getUserInfo w u s).1 = resolveProfile s.cache w u := by
  simp only [getUserInfo, resolveProfile]
  cases hl : lookupCache s.cache u
  · cases hp : w.profileResp u <;> simp
  · simp

/-- `get_user_info` only appends profile-fetch events to the trace. -/
theorem getUserInfo_events (w : World) (u : String) (s : ScrapState) :
    ∃ t, (getUserInfo w u s).2.events = s.events ++ t ∧ profileOnly t := by
  simp only [getUserInfo]
  cases hl : lookupCache s.cache u
  · cases hp : w.profileResp u <;>
      exact ⟨[Event.fetchProfile u (respOk (w.profileResp u))], by simp [hp],
        by intro e he; simp at he; exact ⟨u, _, he⟩⟩
  · exact ⟨[], by simp, by intro e he; simp at he⟩

/-- `get_user_info` leaves the visited set unchanged. -/
theorem getUserInfo_visited (w : World) (u : String) (s : ScrapState) :
    (getUserInfo w u s).2.visited = s.visited := by
  simp only [getUserInfo]
  cases hl : lookupCache s.cache u
  · cases hp : w.profileResp u <;> simp
  · simp

/-- `get_user_info` only prepends entries to the cache. -/
theorem getUserInfo_cache (w : World) (u : String) (s : ScrapState) :
    ∃ t, (getUserInfo w u s).2.cache = t ++ s.cache := by
  simp only [getUserInfo]
  cases hl : lookupCache s.cache u
  · cases hp : w.profileResp u with
    | error k => exact ⟨[], by simp⟩
    | ok v => exact ⟨[(u, v)], by simp⟩
  · exact ⟨[], by simp⟩

/-- `get_followers` appends exactly one follower-fetch event. -/
theorem getFollowers_snd (w : World) (i : Nat) (s : ScrapState) :
    (getFollowers w i s).2 =
      { s with events := s.events ++ [Event.fetchFollowers i] } := by
  simp only [getFollowers]
  cases hp : w.followersResp i <;> simp

/-- A follower-list fetch that fails with any `ClientError` is reported
as the empty list. -/
theorem getFollowers_error (w : World) (i : Nat) (s : ScrapState)
    (k : ClientErrorKind) (h : w.followersResp i = Except.error k) :
    (getFollowers w i s).1 = [] := by
  simp only [getFollowers, h]

/-- Association-list lookup distributes over append. -/
theorem lookupCache_append (t c : List (String × UserInfo)) (u : String) :
    lookupCache (t ++ c) u =
      match lookupCache t u with
      | some v => some v
      | none => lookupCache c u := by
  induction t with
  | nil => simp [lookupCache]
  | cons hd tl ih =>
    obtain ⟨k, v⟩ := hd
    by_cases hk : k = u <;> simp [lookupCache, hk, ih]

/-! ## The event trace of a traversal only grows -/

/-- One follower-loop iteration only appends events. -/
theorem processFollower_events
    (recFn : String → ScrapState → List FollowerInfo × ScrapState)
    (w : World) (d m mf : Nat) (f : UserInfo) (s : ScrapState)
    (hrec : ∀ u st, ∃ t, (recFn u st).2.events = st.events ++ t) :
    ∃ t, (processFollower recFn w d m mf f s).2.events = s.events ++ t := by
  obtain ⟨t0, ht0, -⟩ := getUserInfo_events w f.username s
  simp only [processFollower]
  rcases hg : getUserInfo w f.username s with ⟨o, s1⟩
  rw [hg] at ht0
  simp only at ht0
  cases o with
  | none => exact ⟨t0, ht0⟩
  | some info =>
    by_cases h1 : mf ≤ info.follower_count
    · simp only [if_pos h1]
      by_cases h2 : d < m ∧ info.is_private = false
      · simp only [if_pos h2]
        obtain ⟨t2, ht2⟩ :=
          hrec info.username { s1 with events := s1.events ++ [Event.recurse info d] }
        exact ⟨t0 ++ [Event.recurse info d] ++ t2, by rw [ht2]; simp [ht0]⟩
      · simp only [if_neg h2]
        exact ⟨t0, ht0⟩
    · simp only [if_neg h1]
      exact ⟨t0, ht0⟩

/-- The follower loop only appends events. -/
theorem processFollowers_events
    (recFn : String → ScrapState → List FollowerInfo × ScrapState)
    (w : World) (d m mf : Nat)
    (hrec : ∀ u st, ∃ t, (recFn u st).2.events = st.events ++ t) :
    ∀ (l : List UserInfo) (s : ScrapState),
      ∃ t, (processFollowers recFn w d m mf l s).2.events = s.events ++ t := by
  intro l
  induction l with
  | nil => intro s; exact ⟨[], by simp [processFollowers]⟩
  | cons f rest ih =>
    intro s
    obtain ⟨t1, ht1⟩ := processFollower_events recFn w d m mf f s hrec
    obtain ⟨t2, ht2⟩ := ih (processFollower recFn w d m mf f s).2
    exact ⟨t1 ++ t2, by simp [processFollowers, ht2, ht1]⟩

/-- A traversal only appends events to the trace. -/
theorem analyzeRecAux_events (w : World) (m mf : Nat) :
    ∀ (fuel : Nat) (u : String) (d : Nat) (s : ScrapState),
      ∃ t, (analyzeRecAux w fuel u d m mf s).2.events = s.events ++ t := by
  intro fuel
  induction fuel with
  | zero => intro u d s; exact ⟨[], by simp [analyzeRecAux]⟩
  | succ fuel ih =>
    intro u d s
    simp only [analyzeRecAux]
    by_cases hv : u ∈ s.visited
    · simp only [if_pos hv]
      exact ⟨[], by simp⟩
    · simp only [if_neg hv]
      obtain ⟨t0, ht0, -⟩ := getUserInfo_events w u
        { s with visited := u :: s.visited,
                 events := s.events ++ [Event.progress u d] }
      rcases hg : getUserInfo w u
          { s with visited := u :: s.visited,
                   events := s.events ++ [Event.progress u d] } with ⟨o, s2⟩
      rw [hg] at ht0
      simp only at ht0
      cases o with
      | none => exact ⟨Event.progress u d :: t0, by simp [ht0]⟩
      | some info =>
        by_cases hp : info.is_private
        · simp only [if_pos hp]
          exact ⟨Event.progress u d :: t0, by simp [ht0]⟩
        · simp only [if_neg hp]
          obtain ⟨t2, ht2⟩ := processFollowers_events _ w d m mf
            (fun u2 st => ih u2 (d + 1) st)
            (getFollowers w info.user_id s2).1 (getFollowers w info.user_id s2).2
          refine ⟨Event.progress u d :: t0 ++ [Event.fetchFollowers info.user_id] ++ t2, ?_⟩
          rw [ht2, getFollowers_snd]
          simp [ht0]

/-- The public traversal entry only appends events. -/
theorem analyzeRecursive_events (w : World) (u : String) (d m mf : Nat)
    (s : ScrapState) :
    ∃ t, (analyzeRecursive w u d m mf s).2.events = s.events ++ t :=
  analyzeRecAux_events w m mf (m - d + 1) u d s

/-! ## Every produced result item passes the threshold filter -/

/-- One follower-loop iteration only produces items whose follower count
meets the threshold (an item is appended under the `>= min_followers`
guard; nested items are covered by the hypothesis on the recursive
call). -/
theorem processFollower_counts
    (recFn : String → ScrapState → List FollowerInfo × ScrapState)
    (w : World) (d m mf : Nat) (f : UserInfo) (s : ScrapState)
    (hrec : ∀ u st it, it ∈ (recFn u st).1 → mf ≤ it.follower_count) :
    ∀ it ∈ (processFollower recFn w d m mf f s).1, mf ≤ it.follower_count := by
  simp only [processFollower]
  rcases hg : getUserInfo w f.username s with ⟨o, s1⟩
  cases o with
  | none => simp
  | some info =>
    by_cases h1 : mf ≤ info.follower_count
    · simp only [if_pos h1]
      by_cases h2 : d < m ∧ info.is_private = false
      · simp only [if_pos h2]
        intro it hit
        simp only [List.mem_cons] at hit
        rcases hit with rfl | hit
        · exact h1
        · exact hrec _ _ it hit
      · simp only [if_neg h2]
        intro it hit
        simp only [List.mem_singleton] at hit
        subst hit
        exact h1
    · simp only [if_neg h1]
      simp

/-- The follower loop only produces items meeting the threshold. -/
theorem processFollowers_counts
    (recFn : String → ScrapState → List FollowerInfo × ScrapState)
    (w : World) (d m mf : Nat)
    (hrec : ∀ u st it, it ∈ (recFn u st).1 → mf ≤ it.follower_count) :
    ∀ (l : List UserInfo) (s : ScrapState),
      ∀ it ∈ (processFollowers recFn w d m mf l s).1, mf ≤ it.follower_count := by
  intro l
  induction l with
  | nil => intro s; simp [processFollowers]
  | cons f rest ih =>
    intro s it hit
    simp only [processFollowers, List.mem_append] at hit
    rcases hit with hit | hit
    · exact processFollower_counts recFn w d m mf f s hrec it hit
    · exact ih _ it hit

/-- A traversal only produces items meeting the threshold. -/
theorem analyzeRecAux_counts (w : World) (m mf : Nat) :
    ∀ (fuel : Nat) (u : String) (d : Nat) (s : ScrapState),
      ∀ it ∈ (analyzeRecAux w fuel u d m mf s).1, mf ≤ it.follower_count := by
  intro fuel
  induction fuel with
  | zero => intro u d s; simp [analyzeRecAux]
  | succ fuel ih =>
    intro u d s
    simp only [analyzeRecAux]
    by_cases hv : u ∈ s.visited
    · simp only [if_pos hv]; simp
    · simp only [if_neg hv]
      rcases hg : getUserInfo w u
          { s with visited := u :: s.visited,
                   events := s.events ++ [Event.progress u d] } with ⟨o, s2⟩
      cases o with
      | none => simp
      | some info =>
        by_cases hp : info.is_private
        · simp only [if_pos hp]; simp
        · simp only [if_neg hp]
          exact processFollowers_counts _ w d m mf
            (fun u2 st it hit => ih u2 (d + 1) st it hit) _ _

/-! ## Every produced result item's depth is within bounds -/

/-- One follower-loop iteration at depth `d ≤ m` only produces items
whose depth lies between `d` and `m` (the direct item is tagged `d`;
nested items come from depth `d + 1`, reachable only when `d < m`). -/
theorem processFollower_depths
    (recFn : String → ScrapState → List FollowerInfo × ScrapState)
    (w : World) (d m mf : Nat) (f : UserInfo) (s : ScrapState) (hdm : d ≤ m)
    (hrec : d < m → ∀ u st it, it ∈ (recFn u st).1 →
      d + 1 ≤ it.depth ∧ it.depth ≤ m) :
    ∀ it ∈ (processFollower recFn w d m mf f s).1,
      d ≤ it.depth ∧ it.depth ≤ m := by
  simp only [processFollower]
  rcases hg : getUserInfo w f.username s with ⟨o, s1⟩
  cases o with
  | none => simp
  | some info =>
    by_cases h1 : mf ≤ info.follower_count
    · simp only [if_pos h1]
      by_cases h2 : d < m ∧ info.is_private = false
      · simp only [if_pos h2]
        intro it hit
        simp only [List.mem_cons] at hit
        rcases hit with rfl | hit
        · exact ⟨Nat.le_refl d, hdm⟩
        · obtain ⟨hl, hr⟩ := hrec h2.1 _ _ it hit
          exact ⟨Nat.le_of_succ_le hl, hr⟩
      · simp only [if_neg h2]
        intro it hit
        simp only [List.mem_singleton] at hit
        subst hit
        exact ⟨Nat.le_refl d, hdm⟩
    · simp only [if_neg h1]
      simp

/-- The follower loop at depth `d ≤ m` only produces items with depth
between `d` and `m`. -/
theorem processFollowers_depths
    (recFn : String → ScrapState → List FollowerInfo × ScrapState)
    (w : World) (d m mf : Nat) (hdm : d ≤ m)
    (hrec : d < m → ∀ u st it, it ∈ (recFn u st).1 →
      d + 1 ≤ it.depth ∧ it.depth ≤ m) :
    ∀ (l : List UserInfo) (s : ScrapState),
      ∀ it ∈ (processFollowers recFn w d m mf l s).1,
        d ≤ it.depth ∧ it.depth ≤ m := by
  intro l
  induction l with
  | nil => intro s; simp [processFollowers]
  | cons f rest ih =>
    intro s it hit
    simp only [processFollowers, List.mem_append] at hit
    rcases hit with hit | hit
    · exact processFollower_depths recFn w d m mf f s hdm hrec it hit
    · exact ih _ it hit

/-- A traversal entered at depth `d ≤ m` only produces items with depth
between `d` and `m`. -/
theorem analyzeRecAux_depths (w : World) (m mf : Nat) :
    ∀ (fuel : Nat) (u : String) (d : Nat) (s : ScrapState), d ≤ m →
      ∀ it ∈ (analyzeRecAux w fuel u d m mf s).1,
        d ≤ it.depth ∧ it.depth ≤ m := by
  intro fuel
  induction fuel with
  | zero => intro u d s _; simp [analyzeRecAux]
  | succ fuel ih =>
    intro u d s hdm
    simp only [analyzeRecAux]
    by_cases hv : u ∈ s.visited
    · simp only [if_pos hv]; simp
    · simp only [if_neg hv]
      rcases hg : getUserInfo w u
          { s with visited := u :: s.visited,
                   events := s.events ++ [Event.progress u d] } with ⟨o, s2⟩
      cases o with
      | none => simp
      | some info =>
        by_cases hp : info.is_private
        · simp only [if_pos hp]; simp
        · simp only [if_neg hp]
          exact processFollowers_depths _ w d m mf hdm
            (fun hlt u2 st it hit => ih u2 (d + 1) st hlt it hit) _ _

/-! ## Every recursive descent is gated by the threshold, the depth
bound and the privacy flag -/

/-- `recurseSound` is preserved by appending a sound fragment. -/
theorem recurseSound_append {m mf : Nat} {evs t : List Event}
    (h1 : recurseSound m mf evs) (h2 : recurseSound m mf t) :
    recurseSound m mf (evs ++ t) := by
  intro info pd hm
  rcases List.mem_append.mp hm with hm | hm
  · exact h1 info pd hm
  · exact h2 info pd hm

/-- A fragment of profile-fetch events contains no descent event. -/
theorem profileOnly_recurseSound {m mf : Nat} {t : List Event}
    (h : profileOnly t) : recurseSound m mf t := by
  intro info pd hm
  obtain ⟨u, b, he⟩ := h _ hm
  cases he

/-- One follower-loop iteration preserves `recurseSound`: the only
descent event it appends is emitted under exactly the gate conditions. -/
theorem processFollower_recurseSound
    (recFn : String → ScrapState → List FollowerInfo × ScrapState)
    (w : World) (d m mf : Nat) (f : UserInfo) (s : ScrapState)
    (hrec : ∀ u st, recurseSound m mf st.events →
      recurseSound m mf (recFn u st).2.events)
    (hs : recurseSound m mf s.events) :
    recurseSound m mf (processFollower recFn w d m mf f s).2.events := by
  obtain ⟨t0, ht0, hprof⟩ := getUserInfo_events w f.username s
  simp only [processFollower]
  rcases hg : getUserInfo w f.username s with ⟨o, s1⟩
  rw [hg] at ht0
  simp only at ht0
  have hs1 : recurseSound m mf s1.events := by
    rw [ht0]
    exact recurseSound_append hs (profileOnly_recurseSound hprof)
  cases o with
  | none => exact hs1
  | some info =>
    by_cases h1 : mf ≤ info.follower_count
    · simp only [if_pos h1]
      by_cases h2 : d < m ∧ info.is_private = false
      · simp only [if_pos h2]
        refine hrec _ _ ?_
        simp only
        refine recurseSound_append hs1 ?_
        intro i pd hm
        simp only [List.mem_singleton] at hm
        cases hm
        exact ⟨h1, h2.1, h2.2⟩
      · simp only [if_neg h2]
        exact hs1
    · simp only [if_neg h1]
      exact hs1

/-- The follower loop preserves `recurseSound`. -/
theorem processFollowers_recurseSound
    (recFn : String → ScrapState → List FollowerInfo × ScrapState)
    (w : World) (d m mf : Nat)
    (hrec : ∀ u st, recurseSound m mf st.events →
      recurseSound m mf (recFn u st).2.events) :
    ∀ (l : List UserInfo) (s : ScrapState), recurseSound m mf s.events →
      recurseSound m mf (processFollowers recFn w d m mf l s).2.events := by
  intro l
  induction l with
  | nil => intro s hs; simpa [processFollowers] using hs
  | cons f rest ih =>
    intro s hs
    simp only [processFollowers]
    exact ih _ (processFollower_recurseSound recFn w d m mf f s hrec hs)

/-- A traversal preserves `recurseSound`. -/
theorem analyzeRecAux_recurseSound (w : World) (m mf : Nat) :
    ∀ (fuel : Nat) (u : String) (d : Nat) (s : ScrapState),
      recurseSound m mf s.events →
      recurseSound m mf (analyzeRecAux w fuel u d m mf s).2.events := by
  intro fuel
  induction fuel with
  | zero => intro u d s hs; simpa [analyzeRecAux] using hs
  | succ fuel ih =>
    intro u d s hs
    simp only [analyzeRecAux]
    by_cases hv : u ∈ s.visited
    · simp only [if_pos hv]; exact hs
    · simp only [if_neg hv]
      obtain ⟨t0, ht0, hprof⟩ := getUserInfo_events w u
        { s with visited := u :: s.visited,
                 events := s.events ++ [Event.progress u d] }
      rcases hg : getUserInfo w u
          { s with visited := u :: s.visited,
                   events := s.events ++ [Event.progress u d] } with ⟨o, s2⟩
      rw [hg] at ht0
      simp only at ht0
      have hprog : recurseSound m mf
          (s.events ++ [Event.progress u d]) := by
        refine recurseSound_append hs ?_
        intro i pd hm
        simp only [List.mem_singleton] at hm
        cases hm
      have hs2 : recurseSound m mf s2.events := by
        rw [ht0]
        exact recurseSound_append hprog (profileOnly_recurseSound hprof)
      cases o with
      | none => exact hs2
      | some info =>
        by_cases hp : info.is_private
        · simp only [if_pos hp]; exact hs2
        · simp only [if_neg hp]
          refine processFollowers_recurseSound _ w d m mf
            (fun u2 st hst => ih u2 (d + 1) st hst) _ _ ?_
          rw [getFollowers_snd]
          refine recurseSound_append hs2 ?_
          intro i pd hm
          simp only [List.mem_singleton] at hm
          cases hm

/-! ## No handle's profile is successfully fetched twice -/

/-- `okFetchedHandles` distributes over append. -/
theorem okFetchedHandles_append (l t : List Event) :
    okFetchedHandles (l ++ t) = okFetchedHandles l ++ okFetchedHandles t := by
  simp [okFetchedHandles]

/-- A successful fetch event contributes its handle. -/
theorem okFetchedHandles_fetchTrue (u : String) :
    okFetchedHandles [Event.fetchProfile u true] = [u] := rfl

/-- A failed fetch event contributes nothing. -/
theorem okFetchedHandles_fetchFalse (u : String) :
    okFetchedHandles [Event.fetchProfile u false] = [] := rfl

/-- A progress event contributes nothing. -/
theorem okFetchedHandles_progress (u : String) (d : Nat) :
    okFetchedHandles [Event.progress u d] = [] := rfl

/-- A follower-fetch event contributes nothing. -/
theorem okFetchedHandles_fetchFollowers (i : Nat) :
    okFetchedHandles [Event.fetchFollowers i] = [] := rfl

/-- A descent event contributes nothing. -/
theorem okFetchedHandles_recurse (info : UserInfo) (d : Nat) :
    okFetchedHandles [Event.recurse info d] = [] := rfl

/-- `get_user_info` preserves the fetch invariant: it fetches only on a
cache miss and caches what it successfully fetched. -/
theorem getUserInfo_fetchInv (w : World) (u : String) (s : ScrapState)
    (h : fetchInv s) : fetchInv (getUserInfo w u s).2 := by
  simp only [getUserInfo]
  cases hl : lookupCache s.cache u
  · cases hp : w.profileResp u with
    | ok v =>
      have hu : u ∉ okFetchedHandles s.events := by
        intro hmem
        exact h.2 u hmem hl
      constructor
      · simp only [okFetchedHandles_append, okFetchedHandles_fetchTrue, hp, respOk]
        rw [List.nodup_append]
        exact ⟨h.1, List.nodup_singleton u,
          fun a ha hb => by
            simp only [List.mem_singleton] at hb
            exact hu (hb ▸ ha)⟩
      · intro u' hu'
        simp only [okFetchedHandles_append, okFetchedHandles_fetchTrue, hp,
          respOk, List.mem_append, List.mem_singleton] at hu'
        simp only [lookupCache]
        rcases hu' with hu' | rfl
        · by_cases he : u = u'
          · simp [he]
          · simp only [if_neg he]
            exact h.2 u' hu'
        · simp
    | error k =>
      constructor
      · simpa only [okFetchedHandles_append, okFetchedHandles_fetchFalse, hp,
          respOk, List.append_nil] using h.1
      · intro u' hu'
        simp only [okFetchedHandles_append, okFetchedHandles_fetchFalse, hp,
          respOk, List.append_nil] at hu'
        exact h.2 u' hu'
  · exact h

/-- One follower-loop iteration preserves the fetch invariant. -/
theorem processFollower_fetchInv
    (recFn : String → ScrapState → List FollowerInfo × ScrapState)
    (w : World) (d m mf : Nat) (f : UserInfo) (s : ScrapState)
    (hrec : ∀ u st, fetchInv st → fetchInv (recFn u st).2)
    (h : fetchInv s) : fetchInv (processFollower recFn w d m mf f s).2 := by
  have h1 := getUserInfo_fetchInv w f.username s h
  simp only [processFollower]
  rcases hg : getUserInfo w f.username s with ⟨o, s1⟩
  rw [hg] at h1
  simp only at h1
  cases o with
  | none => exact h1
  | some info =>
    by_cases hc : mf ≤ info.follower_count
    · simp only [if_pos hc]
      by_cases h2 : d < m ∧ info.is_private = false
      · simp only [if_pos h2]
        refine hrec _ _ ?_
        constructor
        · simpa only [okFetchedHandles_append, okFetchedHandles_recurse,
            List.append_nil] using h1.1
        · intro u' hu'
          simp only [okFetchedHandles_append, okFetchedHandles_recurse,
            List.append_nil] at hu'
          exact h1.2 u' hu'
      · simp only [if_neg h2]
        exact h1
    · simp only [if_neg hc]
      exact h1

/-- The follower loop preserves the fetch invariant. -/
theorem processFollowers_fetchInv
    (recFn : String → ScrapState → List FollowerInfo × ScrapState)
    (w : World) (d m mf : Nat)
    (hrec : ∀ u st, fetchInv st → fetchInv (recFn u st).2) :
    ∀ (l : List UserInfo) (s : ScrapState), fetchInv s →
      fetchInv (processFollowers recFn w d m mf l s).2 := by
  intro l
  induction l with
  | nil => intro s hs; simpa [processFollowers] using hs
  | cons f rest ih =>
    intro s hs
    simp only [processFollowers]
    exact ih _ (processFollower_fetchInv recFn w d m mf f s hrec hs)

/-- A traversal preserves the fetch invariant. -/
theorem analyzeRecAux_fetchInv (w : World) (m mf : Nat) :
    ∀ (fuel : Nat) (u : String) (d : Nat) (s : ScrapState), fetchInv s →
      fetchInv (analyzeRecAux w fuel u d m mf s).2 := by
  intro fuel
  induction fuel with
  | zero => intro u d s hs; simpa [analyzeRecAux] using hs
  | succ fuel ih =>
    intro u d s hs
    simp only [analyzeRecAux]
    by_cases hv : u ∈ s.visited
    · simp only [if_pos hv]; exact hs
    · simp only [if_neg hv]
      have hs1 : fetchInv
          { s with visited := u :: s.visited,
                   events := s.events ++ [Event.progress u d] } := by
        constructor
        · simpa only [okFetchedHandles_append, okFetchedHandles_progress,
            List.append_nil] using hs.1
        · intro u' hu'
          simp only [okFetchedHandles_append, okFetchedHandles_progress,
            List.append_nil] at hu'
          exact hs.2 u' hu'
      have h2 := getUserInfo_fetchInv w u
        { s with visited := u :: s.visited,
                 events := s.events ++ [Event.progress u d] } hs1
      rcases hg : getUserInfo w u
          { s with visited := u :: s.visited,
                   events := s.events ++ [Event.progress u d] } with ⟨o, s2⟩
      rw [hg] at h2
      simp only at h2
      cases o with
      | none => exact h2
      | some info =>
        by_cases hp : info.is_private
        · simp only [if_pos hp]; exact h2
        · simp only [if_neg hp]
          refine processFollowers_fetchInv _ w d m mf
            (fun u2 st hst => ih u2 (d + 1) st hst) _ _ ?_
          rw [getFollowers_snd]
          constructor
          · simpa only [okFetchedHandles_append, okFetchedHandles_fetchFollowers,
              List.append_nil] using h2.1
          · intro u' hu'
            simp only [okFetchedHandles_append, okFetchedHandles_fetchFollowers,
              List.append_nil] at hu'
            exact h2.2 u' hu'

/-! ## The pipeline does not distinguish `ClientError` kinds -/

/-- `get_user_info` treats every `ClientError` kind identically: its
handler catches the base class. -/
theorem getUserInfo_collapse (w : World) (u : String) (s : ScrapState) :
    getUserInfo (collapseKinds w) u s = getUserInfo w u s := by
  simp only [getUserInfo, collapseKinds]
  cases hl : lookupCache s.cache u
  · cases hp : w.profileResp u <;> simp [hp, respOk]
  · rfl

/-- `get_followers` treats every `ClientError` kind identically. -/
theorem getFollowers_collapse (w : World) (i : Nat) (s : ScrapState) :
    getFollowers (collapseKinds w) i s = getFollowers w i s := by
  simp only [getFollowers, collapseKinds]
  cases hp : w.followersResp i <;> simp [hp]

/-- One follower-loop iteration is a congruence in the recursive call
and in the profile resolver. -/
theorem processFollower_congr
    (recFn recFn' : String → ScrapState → List FollowerInfo × ScrapState)
    (w w' : World) (d m mf : Nat) (f : UserInfo) (s : ScrapState)
    (hrec : ∀ u st, recFn u st = recFn' u st)
    (hw : ∀ u st, getUserInfo w u st = getUserInfo w' u st) :
    processFollower recFn w d m mf f s = processFollower recFn' w' d m mf f s := by
  simp only [processFollower, hw]
  rcases hg : getUserInfo w' f.username s with ⟨o, s1⟩
  cases o with
  | none => rfl
  | some info => simp only [hrec]

/-- The follower loop is a congruence in the recursive call and in the
profile resolver. -/
theorem processFollowers_congr
    (recFn recFn' : String → ScrapState → List FollowerInfo × ScrapState)
    (w w' : World) (d m mf : Nat)
    (hrec : ∀ u st, recFn u st = recFn' u st)
    (hw : ∀ u st, getUserInfo w u st = getUserInfo w' u st) :
    ∀ (l : List UserInfo) (s : ScrapState),
      processFollowers recFn w d m mf l s = processFollowers recFn' w' d m mf l s := by
  intro l
  induction l with
  | nil => intro s; rfl
  | cons f rest ih =>
    intro s
    simp only [processFollowers,
      processFollower_congr recFn recFn' w w' d m mf f s hrec hw, ih]

/-- A traversal cannot tell `ClientError` kinds apart: erasing the kind
of every provider failure leaves its entire output unchanged. -/
theorem analyzeRecAux_collapse (w : World) (m mf : Nat) :
    ∀ (fuel : Nat) (u : String) (d : Nat) (s : ScrapState),
      analyzeRecAux (collapseKinds w) fuel u d m mf s =
        analyzeRecAux w fuel u d m mf s := by
  intro fuel
  induction fuel with
  | zero => intro u d s; rfl
  | succ fuel ih =>
    intro u d s
    simp only [analyzeRecAux, getUserInfo_collapse, getFollowers_collapse]
    by_cases hv : u ∈ s.visited
    · simp only [if_pos hv]
    · simp only [if_neg hv]
      rcases hg : getUserInfo w u
          { s with visited := u :: s.visited,
                   events := s.events ++ [Event.progress u d] } with ⟨o, s2⟩
      cases o with
      | none => rfl
      | some info =>
        by_cases hp : info.is_private
        · simp only [if_pos hp]
        · simp only [if_neg hp]
          exact processFollowers_congr _ _ (collapseKinds w) w d m mf
            (fun u2 st => ih u2 (d + 1) st)
            (fun u2 st => getUserInfo_collapse w u2 st) _ _

/-- The worker's whole output is unchanged when every provider failure's
kind is erased. -/
theorem runAnalysis_collapse (w : World) (u : String) (d mf : Nat)
    (c0 : List (String × UserInfo)) :
    runAnalysis (collapseKinds w) u d mf c0 = runAnalysis w u d mf c0 := by
  simp only [runAnalysis, traversalOutcome, analyzeRecursive,
    analyzeRecAux_collapse]

/-! ## Direct computations of traversal entry cases -/

/-- If the target cannot be resolved (cache miss and provider failure),
the traversal returns the empty branch result. -/
theorem analyzeRecAux_rootFail (w : World) (fuel : Nat) (u : String)
    (d m mf : Nat) (s : ScrapState)
    (hres : resolveProfile s.cache w u = none) :
    (analyzeRecAux w (fuel + 1) u d m mf s).1 = [] := by
  simp only [analyzeRecAux]
  by_cases hv : u ∈ s.visited
  · simp only [if_pos hv]
  · simp only [if_neg hv]
    have h1 := getUserInfo_fst w u
      { s with visited := u :: s.visited,
               events := s.events ++ [Event.progress u d] }
    rcases hg : getUserInfo w u
        { s with visited := u :: s.visited,
                 events := s.events ++ [Event.progress u d] } with ⟨o, s2⟩
    rw [hg] at h1
    simp only at h1
    rw [hres] at h1
    subst h1
    rfl

/-- A resolved private target yields the empty branch result, and the
traversal makes no follower-list call at all in that invocation. -/
theorem analyzeRecAux_private (w : World) (fuel : Nat) (u : String)
    (d m mf : Nat) (s : ScrapState) (info : UserInfo)
    (hres : resolveProfile s.cache w u = some info)
    (hpriv : info.is_private = true) :
    (analyzeRecAux w (fuel + 1) u d m mf s).1 = [] ∧
    ∀ i, Event.fetchFollowers i ∉
      (analyzeRecAux w (fuel + 1) u d m mf s).2.events.drop s.events.length := by
  simp only [analyzeRecAux]
  by_cases hv : u ∈ s.visited
  · simp only [if_pos hv]
    exact ⟨by simp, by intro i; simp [List.drop_length]⟩
  · simp only [if_neg hv]
    have h1 := getUserInfo_fst w u
      { s with visited := u :: s.visited,
               events := s.events ++ [Event.progress u d] }
    obtain ⟨t0, ht0, hprof⟩ := getUserInfo_events w u
      { s with visited := u :: s.visited,
               events := s.events ++ [Event.progress u d] }
    rcases hg : getUserInfo w u
        { s with visited := u :: s.visited,
                 events := s.events ++ [Event.progress u d] } with ⟨o, s2⟩
    rw [hg] at h1 ht0
    simp only at h1 ht0
    rw [hres] at h1
    subst h1
    simp only [if_pos hpriv]
    refine ⟨by simp, ?_⟩
    intro i hmem
    rw [ht0, List.append_assoc, List.drop_left] at hmem
    simp only [List.mem_append, List.mem_singleton] at hmem
    rcases hmem with hmem | hmem
    · cases hmem
    · obtain ⟨u', b, he⟩ := hprof _ hmem
      cases he

/-- If the resolved target is public but its follower-list fetch fails,
the branch contributes no results. -/
theorem analyzeRecAux_followersFail (w : World) (fuel : Nat) (u : String)
    (d m mf : Nat) (s : ScrapState) (info : UserInfo) (k : ClientErrorKind)
    (hres : resolveProfile s.cache w u = some info)
    (hpriv : info.is_private = false)
    (hf : w.followersResp info.user_id = Except.error k) :
    (analyzeRecAux w (fuel + 1) u d m mf s).1 = [] := by
  simp only [analyzeRecAux]
  by_cases hv : u ∈ s.visited
  · simp only [if_pos hv]
  · simp only [if_neg hv]
    have h1 := getUserInfo_fst w u
      { s with visited := u :: s.visited,
               events := s.events ++ [Event.progress u d] }
    rcases hg : getUserInfo w u
        { s with visited := u :: s.visited,
                 events := s.events ++ [Event.progress u d] } with ⟨o, s2⟩
    rw [hg] at h1
    simp only at h1
    rw [hres] at h1
    subst h1
    simp only [hpriv, if_neg Bool.false_ne_true]
    rw [getFollowers_error w info.user_id s2 k hf]
    rfl

/-- One follower-loop iteration of the engine makes the nested
`analyze_recursive` call exactly when the follower's profile resolves,
its follower count meets the threshold, the current depth is below the
bound, and the follower is not private. -/
theorem processFollower_recurse_iff (w : World) (fuel d m mf : Nat)
    (f : UserInfo) (s : ScrapState) :
    (∃ info pd, Event.recurse info pd ∈
        ((processFollower (fun u2 st => analyzeRecAux w fuel u2 (d + 1) m mf st)
          w d m mf f s).2.events.drop s.events.length)) ↔
    (∃ info, (getUserInfo w f.username s).1 = some info ∧
      mf ≤ info.follower_count ∧ d < m ∧ info.is_private = false) := by
  obtain ⟨t0, ht0, hprof⟩ := getUserInfo_events w f.username s
  simp only [processFollower]
  rcases hg : getUserInfo w f.username s with ⟨o, s1⟩
  rw [hg] at ht0
  simp only at ht0
  cases o with
  | none =>
    constructor
    · rintro ⟨info, pd, hmem⟩
      rw [ht0, List.drop_left] at hmem
      obtain ⟨u', b, he⟩ := hprof _ hmem
      cases he
    · rintro ⟨info, hinfo, -⟩
      cases hinfo
  | some info' =>
    by_cases h1 : mf ≤ info'.follower_count
    · simp only [if_pos h1]
      by_cases h2 : d < m ∧ info'.is_private = false
      · simp only [if_pos h2]
        obtain ⟨t2, ht2⟩ := analyzeRecAux_events w m mf fuel info'.username (d + 1)
          { s1 with events := s1.events ++ [Event.recurse info' d] }
        constructor
        · intro _
          exact ⟨info', rfl, h1, h2.1, h2.2⟩
        · intro _
          refine ⟨info', d, ?_⟩
          rw [ht2]
          simp only [ht0, List.append_assoc, List.drop_left]
          simp
      · simp only [if_neg h2]
        constructor
        · rintro ⟨info, pd, hmem⟩
          rw [ht0, List.drop_left] at hmem
          obtain ⟨u', b, he⟩ := hprof _ hmem
          cases he
        · rintro ⟨info, hinfo, -, hd, hpv⟩
          injection hinfo with hinfo
          subst hinfo
          exact (h2 ⟨hd, hpv⟩).elim
    · simp only [if_neg h1]
      constructor
      · rintro ⟨info, pd, hmem⟩
        rw [ht0, List.drop_left] at hmem
        obtain ⟨u', b, he⟩ := hprof _ hmem
        cases he
      · rintro ⟨info, hinfo, hcount, -⟩
        injection hinfo with hinfo
        subst hinfo
        exact (h1 hcount).elim

/-! ## Worker-level consequences -/

/-- When the root target's profile cannot be resolved (cache miss and
provider failure), the worker still completes the job, with an empty
result list and no recorded error. -/
theorem runAnalysis_rootResolveFail (w : World) (root : String) (d mf : Nat)
    (c0 : List (String × UserInfo))
    (hres : resolveProfile c0 w root = none) :
    runAnalysis w root d mf c0 =
      { status := JobStatus.completed, results := [], error := none } := by
  simp only [runAnalysis, traversalOutcome, runAnalysisE, analyzeRecursive]
  rw [analyzeRecAux_rootFail w (d - 1) root 1 d mf
    { cache := c0, visited := [], events := [] } hres]

/-- When the root target resolves to a public profile but its
follower-list fetch fails, the worker completes the job with an empty
result list and no recorded error. -/
theorem runAnalysis_followersFail (w : World) (root : String) (d mf : Nat)
    (c0 : List (String × UserInfo)) (info : UserInfo) (k : ClientErrorKind)
    (hres : resolveProfile c0 w root = some info)
    (hpriv : info.is_private = false)
    (hf : w.followersResp info.user_id = Except.error k) :
    runAnalysis w root d mf c0 =
      { status := JobStatus.completed, results := [], error := none } := by
  simp only [runAnalysis, traversalOutcome, runAnalysisE, analyzeRecursive]
  rw [analyzeRecAux_followersFail w (d - 1) root 1 d mf
    { cache := c0, visited := [], events := [] } info k hres hpriv hf]

/-! ## The claims -/

/-- Claim C1, counterexample: in a world where the root target's profile
resolution fails (the provider raises `ClientError` and nothing is
cached), the worker transitions the job to Completed — not to Failed as
the claim states. -/
theorem c1_counterexample :
    (runAnalysis wFailRoot "root" 2 100 []).status = JobStatus.completed ∧
    (runAnalysis wFailRoot "root" 2 100 []).status ≠ JobStatus.failed := by
  decide

/-- Claim C1 (amended): failure to resolve the root target's profile
does not propagate out of the traversal — `get_user_info` catches the
`ClientError` and returns absent, `analyze_recursive` returns the empty
list, and the worker transitions the job to Completed with empty results
and no error message, never to Failed. -/
theorem c1_theorem (w : World) (root : String) (d mf : Nat)
    (c0 : List (String × UserInfo))
    (hres : resolveProfile c0 w root = none) :
    runAnalysis w root d mf c0 =
      { status := JobStatus.completed, results := [], error := none } :=
  runAnalysis_rootResolveFail w root d mf c0 hres

/-- Claim C1, witness: the amended claim at a concrete world whose root
profile resolution fails. -/
theorem c1_witness :
    runAnalysis wFailRoot "alice" 3 50 [] =
      { status := JobStatus.completed, results := [], error := none } :=
  c1_theorem wFailRoot "alice" 3 50 [] (by decide)

/-- Claim C2, counterexample: when every provider call fails with
`LoginRequired` (invalid session), the job still transitions to
Completed — the worker does not fail it — and the entire run is
indistinguishable from the same world with the authentication kind
erased to a generic `ClientError`. -/
theorem c2_counterexample :
    (runAnalysis wAuth "root" 2 100 []).status = JobStatus.completed ∧
    (runAnalysis wAuth "root" 2 100 []).status ≠ JobStatus.failed ∧
    runAnalysis wAuth "root" 2 100 [] =
      runAnalysis (collapseKinds wAuth) "root" 2 100 [] := by
  decide

/-- Claim C2 (amended): authentication failures are not surfaced as a
distinguished error kind — every handler in scraper.py catches the
`ClientError` base class, so erasing the kind of every provider failure
leaves the worker's output unchanged — and an authentication failure on
the root resolution makes the job Complete (with empty results), not
fail immediately. -/
theorem c2_theorem (w : World) (root : String) (d mf : Nat)
    (c0 : List (String × UserInfo)) :
    runAnalysis (collapseKinds w) root d mf c0 = runAnalysis w root d mf c0 ∧
    (lookupCache c0 root = none →
      w.profileResp root = Except.error ClientErrorKind.loginRequired →
      runAnalysis w root d mf c0 =
        { status := JobStatus.completed, results := [], error := none }) := by
  refine ⟨runAnalysis_collapse w root d mf c0, fun hl hp => ?_⟩
  apply runAnalysis_rootResolveFail
  simp [resolveProfile, hl, hp]

/-- Claim C2, witness: the amended claim at a concrete world whose every
call fails with `LoginRequired`. -/
theorem c2_witness :
    runAnalysis wAuth "bob" 2 100 [] =
      { status := JobStatus.completed, results := [], error := none } :=
  (c2_theorem wAuth "bob" 2 100 []).2 (by decide) rfl

/-- Claim C3: the engine recurses into a follower exactly under the
gate conditions.  First conjunct (soundness over a whole traversal from
a fresh state): every recursive descent recorded in the trace was made
on a follower whose resolved follower count meets the threshold, from a
depth strictly below `max_depth`, on a non-private account — in
particular exploration never descends into an account below the
threshold.  Second conjunct (completeness, per loop iteration): the
iteration makes a nested `analyze_recursive` call if and only if the
follower's profile resolves and satisfies all three gate conditions. -/
theorem c3_theorem :
    (∀ (w : World) (root : String) (d0 m mf : Nat)
        (c0 : List (String × UserInfo)) (info : UserInfo) (pd : Nat),
      Event.recurse info pd ∈
        (analyzeRecursive w root d0 m mf
          { cache := c0, visited := [], events := [] }).2.events →
      mf ≤ info.follower_count ∧ pd < m ∧ info.is_private = false) ∧
    (∀ (w : World) (fuel d m mf : Nat) (f : UserInfo) (s : ScrapState),
      (∃ info pd, Event.recurse info pd ∈
          ((processFollower
            (fun u2 st => analyzeRecAux w fuel u2 (d + 1) m mf st)
            w d m mf f s).2.events.drop s.events.length)) ↔
      (∃ info, (getUserInfo w f.username s).1 = some info ∧
        mf ≤ info.follower_count ∧ d < m ∧ info.is_private = false)) := by
  constructor
  · intro w root d0 m mf c0 info pd hmem
    refine analyzeRecAux_recurseSound w m mf (m - d0 + 1) root d0
      { cache := c0, visited := [], events := [] } ?_ info pd hmem
    intro i p h
    simp at h
  · intro w fuel d m mf f s
    exact processFollower_recurse_iff w fuel d m mf f s

/-- Claim C3, witness: the soundness conjunct applied to a concrete
descent event of the diamond-world traversal. -/
theorem c3_witness :
    100 ≤ uA.follower_count ∧ 1 < 2 ∧ uA.is_private = false :=
  c3_theorem.1 wDup "r" 1 2 100 [] uA 1 (by decide)

/-- Claim C4, counterexample: in the diamond world where `c`'s profile
resolution always fails, the traversal requests `c`'s profile from the
provider twice (once under `a`, once under `b`) — the second access is
neither a cache hit nor skipped as visited, refuting the claim as
stated. -/
theorem c4_counterexample :
    ¬ (fetchedHandles (analyzeRecursive wRefetch "r" 1 2 100
        { cache := [], visited := [], events := [] }).2.events).Nodup := by
  decide

/-- Claim C4 (amended): within one traversal the engine never
*successfully* fetches the same handle's profile twice from the
Provider — each successful fetch is cached and every later access is a
cache hit or skipped — but a handle whose fetch failed may be fetched
again when it is encountered again. -/
theorem c4_theorem (w : World) (root : String) (d m mf : Nat)
    (c0 : List (String × UserInfo)) :
    (okFetchedHandles (analyzeRecursive w root d m mf
      { cache := c0, visited := [], events := [] }).2.events).Nodup := by
  refine (analyzeRecAux_fetchInv w m mf (m - d + 1) root d
    { cache := c0, visited := [], events := [] } ⟨?_, ?_⟩).1
  · simp [okFetchedHandles]
  · intro u hu
    simp [okFetchedHandles] at hu

/-- Claim C5: every returned result item's follower count meets the
requested minimum-follower threshold. -/
theorem c5_theorem (w : World) (root : String) (d m mf : Nat)
    (s : ScrapState) :
    ∀ it ∈ (analyzeRecursive w root d m mf s).1, mf ≤ it.follower_count :=
  fun it hit => analyzeRecAux_counts w m mf (m - d + 1) root d s it hit

/-- Claim C5, witness: the threshold bound at a concrete item of the
diamond-world traversal. -/
theorem c5_witness :
    100 ≤ (⟨"a", "A", 500, 7, false, 1⟩ : FollowerInfo).follower_count :=
  c5_theorem wDup "r" 1 2 100 { cache := [], visited := [], events := [] }
    ⟨"a", "A", 500, 7, false, 1⟩ (by decide)

/-- Claim C6: a traversal started at depth 1 with `max_depth ≥ 1`
produces only items whose depth lies between 1 and `max_depth`. -/
theorem c6_theorem (w : World) (root : String) (m mf : Nat)
    (c0 : List (String × UserInfo)) (hm : 1 ≤ m) :
    ∀ it ∈ (analyzeRecursive w root 1 m mf
        { cache := c0, visited := [], events := [] }).1,
      1 ≤ it.depth ∧ it.depth ≤ m :=
  fun it hit => analyzeRecAux_depths w m mf (m - 1 + 1) root 1
    { cache := c0, visited := [], events := [] } hm it hit

/-- Claim C6, witness: the depth bounds at a concrete depth-2 item of
the diamond-world traversal with `max_depth = 2`. -/
theorem c6_witness :
    1 ≤ (⟨"c", "C", 500, 9, false, 2⟩ : FollowerInfo).depth ∧
    (⟨"c", "C", 500, 9, false, 2⟩ : FollowerInfo).depth ≤ 2 :=
  c6_theorem wDup "r" 2 100 [] (by decide)
    ⟨"c", "C", 500, 9, false, 2⟩ (by decide)

/-- Claim C7: if the target resolves to a profile whose privacy flag is
set, the traversal returns the empty result list and the invocation
never fetches any follower list from the Provider. -/
theorem c7_theorem (w : World) (u : String) (d m mf : Nat)
    (s : ScrapState) (info : UserInfo)
    (hres : resolveProfile s.cache w u = some info)
    (hpriv : info.is_private = true) :
    (analyzeRecursive w u d m mf s).1 = [] ∧
    ∀ i, Event.fetchFollowers i ∉
      (analyzeRecursive w u d m mf s).2.events.drop s.events.length :=
  analyzeRecAux_private w (m - d) u d m mf s info hres hpriv

/-- Claim C7, witness: the private target `p` (user id 9) yields no
results and its follower list is never requested. -/
theorem c7_witness :
    (analyzeRecursive wPriv "p" 1 3 100
      { cache := [], visited := [], events := [] }).1 = [] ∧
    Event.fetchFollowers 9 ∉
      (analyzeRecursive wPriv "p" 1 3 100
        { cache := [], visited := [], events := [] }).2.events.drop
        ({ cache := [], visited := [], events := [] } : ScrapState).events.length :=
  ⟨(c7_theorem wPriv "p" 1 3 100 { cache := [], visited := [], events := [] }
      uPriv (by decide) (by decide)).1,
   (c7_theorem wPriv "p" 1 3 100 { cache := [], visited := [], events := [] }
      uPriv (by decide) (by decide)).2 9⟩

/-- Claim C8: a cache entry written more than `USER_CACHE_TTL = 86400`
seconds before a subsequent get is not returned by that get (the get
behaves as a miss), and a put unconditionally overwrites any existing
entry for that handle. -/
theorem c8_theorem (store : RedisStore) (u : String) (info : UserInfo)
    (t1 t2 : Nat) (h : t1 + USER_CACHE_TTL < t2) :
    getCachedUser (cacheUser store u info t1) u t2 = none ∧
    cacheUser store u info t1 ("user:" ++ u) =
      some { value := info, expireAt := t1 + USER_CACHE_TTL } := by
  constructor
  · simp [getCachedUser, cacheUser, redisSetex, redisGet, h]
  · simp [cacheUser, redisSetex]

/-- Claim C8, witness: an entry written at time 0 is gone at time 86401,
and the put overwrote the pre-existing entry for the same handle. -/
theorem c8_witness :
    getCachedUser (cacheUser (fun _ => some { value := uB, expireAt := 999999999 })
      "x" uA 0) "x" 86401 = none ∧
    cacheUser (fun _ => some { value := uB, expireAt := 999999999 }) "x" uA 0
      ("user:" ++ "x") = some { value := uA, expireAt := 0 + USER_CACHE_TTL } :=
  c8_theorem (fun _ => some { value := uB, expireAt := 999999999 })
    "x" uA 0 86401 (by decide)

/-- Claim C9: the result list is not deduplicated — in the diamond
world, `c` (discovered at `max_depth` under both `a` and `b`, hence
never visited) appears twice in the returned list of one traversal. -/
theorem c9_theorem :
    1 < ((analyzeRecursive wDup "r" 1 2 100
      { cache := [], visited := [], events := [] }).1.map
        (fun it => it.username)).count "c" := by
  decide

/-- Claim C10: a failed follower-list fetch is reported as the empty
follower list rather than an error (first conjunct), so that branch
contributes no results, no error propagates, and the worker still
transitions the job to Completed (second conjunct, for the root
branch). -/
theorem c10_theorem :
    (∀ (w : World) (i : Nat) (s : ScrapState) (k : ClientErrorKind),
      w.followersResp i = Except.error k → (getFollowers w i s).1 = []) ∧
    (∀ (w : World) (root : String) (d mf : Nat)
        (c0 : List (String × UserInfo)) (info : UserInfo) (k : ClientErrorKind),
      resolveProfile c0 w root = some info → info.is_private = false →
      w.followersResp info.user_id = Except.error k →
      runAnalysis w root d mf c0 =
        { status := JobStatus.completed, results := [], error := none }) :=
  ⟨fun w i s k h => getFollowers_error w i s k h,
   fun w root d mf c0 info k h1 h2 h3 =>
     runAnalysis_followersFail w root d mf c0 info k h1 h2 h3⟩

/-- Claim C10, witness: in the world whose follower-list fetches all
fail, the job for public root `r` completes with empty results and no
error. -/
theorem c10_witness :
    runAnalysis wFollowErr "r" 2 100 [] =
      { status := JobStatus.completed, results := [], error := none } :=
  c10_theorem.2 wFollowErr "r" 2 100 [] uR ClientErrorKind.other
    (by decide) (by decide) rfl

end InstaGraph
